import Mathlib

/-!
Verification development for a distributed chat application:
per-process connection Hub, client Session loops, a Redis-backed bus
bridge, a load-aware Routing Registry (load balancer), and a history
endpoint. Each Go structure and function used by the properties below is
shallowly embedded as an executable Lean definition, then the stated
properties are proved (or refuted) about those definitions.
-/

namespace DistChat

/-! ## Data model

`models.Message` (src/server/models/message.go): JSON chat message with
fields ID, Username, Content, Server, Timestamp. Go zero values are
`0` for `int64` and `""` for `string`. -/

structure Message where
  id : Int
  username : String
  content : String
  server : String
  timestamp : String
deriving Repr, DecidableEq

/-! ## Routing registry (src/loadbalancer/main.go)

`ChatServerInfo` carries a process address and its last-reported load.
Go's `Load` field is a signed `int`, so it is modelled as `Int`.
The registry `lb.servers` is a map from address to entry; map iteration
order is arbitrary, so the registry is modelled as a list of entries in
some iteration order, keyed by address. -/

structure ChatServerInfo where
  address : String
  load : Int
deriving Repr, DecidableEq

/-- Errors the `/get` handler can answer with: `no available servers`
(HTTP 503) when the registry is empty, and the (unreachable) defensive
`could not determine best server` (HTTP 500). -/
inductive LBError where
  | noServersAvailable
  | couldNotDetermineBest
deriving Repr, DecidableEq

/-- The scan inside `getServer`: `bestServer` starts `nil`; each entry
with strictly smaller load replaces it (ties keep the earlier entry in
iteration order). -/
def scanBest (servers : List ChatServerInfo) : Option ChatServerInfo :=
  servers.foldl
    (fun best s =>
      match best with
      | none => some s
      | some b => if s.load < b.load then some s else some b)
    none

/-- `getServer` (the `/get` handler): 503 when the registry is empty,
otherwise the linear minimum-load scan; the `bestServer == nil` branch
answers 500. -/
def getServer (servers : List ChatServerInfo) : Except LBError ChatServerInfo :=
  if servers.isEmpty then
    .error .noServersAvailable
  else
    match scanBest servers with
    | none => .error .couldNotDetermineBest
    | some b => .ok b

/-- `updateServer`'s registry mutation: overwrite the load of the entry
for `addr` when present, otherwise insert a fresh entry (Go:
`if existing, ok := lb.servers[s.Address]; ok { existing.Load = s.Load }
else { lb.servers[s.Address] = &ChatServerInfo{...} }`). -/
def updateServer (servers : List ChatServerInfo) (addr : String) (load : Int) :
    List ChatServerInfo :=
  if servers.any (fun s => s.address = addr) then
    servers.map (fun s => if s.address = addr then { s with load := load } else s)
  else
    servers ++ [{ address := addr, load := load }]

/-- The `/update` handler: a body that fails to decode answers 400 and
leaves the registry untouched; any decoded `{address, load}` body is
applied with `updateServer` and answered 200. There is no further
validation of the decoded values. -/
def updateServerHandler (servers : List ChatServerInfo) (body : Option ChatServerInfo) :
    List ChatServerInfo × Nat :=
  match body with
  | none => (servers, 400)
  | some s => (updateServer servers s.address s.load, 200)

/-- Registry lookup by address (first entry in iteration order). -/
def lookupServer (servers : List ChatServerInfo) (addr : String) :
    Option ChatServerInfo :=
  servers.find? (fun s => s.address = addr)

/-! ## Client session (src/server/client/client.go)

A `Client` bridges one websocket connection to the Hub. `Send` is a
buffered channel of capacity 256 (created in `ServeWS`), modelled by the
list of currently buffered payloads plus its capacity; `CloseOnce` is a
`sync.Once` guarding `close(client.Send)`, modelled by the `closeOnceUsed`
flag; `closeCount` counts how many times `close` actually ran (a second
real `close` would panic in Go, so the property of interest is that this
counter never exceeds 1). `registered` models membership of this client
(as a map key) in its Hub's `clients` map. Clients are identified by a
`Nat` id standing for the Go pointer identity. -/

structure Client where
  id : Nat
  username : String
  send : List String
  sendCap : Nat
  closed : Bool
  closeOnceUsed : Bool
  closeCount : Nat
  registered : Bool
deriving Repr, DecidableEq

/-- `client.CloseOnce.Do(func() { close(client.Send) })`: runs the close
only the first time, marking the channel closed. -/
def closeOnce (c : Client) : Client :=
  if c.closeOnceUsed then c
  else { c with closeOnceUsed := true, closed := true, closeCount := c.closeCount + 1 }

/-- The `Client` literal built in `ServeWS`: fresh open channel of
capacity 256, not yet registered. -/
def mkClient (id : Nat) (username : String) : Client :=
  { id := id, username := username, send := [], sendCap := 256,
    closed := false, closeOnceUsed := false, closeCount := 0, registered := false }

/-! ## Connection hub (src/server/hub/hub.go)

The Hub's state is its address, the `clients` map (here: every client the
hub has ever seen, with `registered` marking current map membership), and
the sequence of loads reported to the load balancer via
`lbClient.UpdateLoad`, in the order the reports were issued. All registry
mutations happen under `h.mu` (or the serialized `Run` loop), so each Go
critical section is modelled as one atomic Lean function. -/

structure HubState where
  address : String
  clients : List Client
  reports : List Nat
deriving Repr, DecidableEq

/-- A hub as built by `hub.New`: empty registry, no reports yet. -/
def initHub (address : String) : HubState :=
  { address := address, clients := [], reports := [] }

/-- Current registry size (`len(h.clients)`), the process's load. -/
def registrySize (st : HubState) : Nat :=
  (st.clients.filter (fun c => c.registered)).length

/-- The map assignment `h.clients[client] = true`: mark the key present
when it already exists, otherwise insert it. -/
def regInsert (c : Client) (l : List Client) : List Client :=
  if l.any (fun x => x.id = c.id) then
    l.map (fun x => if x.id = c.id then { x with registered := true } else x)
  else
    l ++ [{ c with registered := true }]

/-- The map deletion plus one-shot close performed by the unregister arm:
`delete(h.clients, client); client.CloseOnce.Do(func() { close(client.Send) })`. -/
def unregMap (cid : Nat) (l : List Client) : List Client :=
  l.map (fun x =>
    if x.id = cid then closeOnce { x with registered := false } else x)

/-- The `case client := <-h.register:` arm of `Run`: put the client in
the map (`h.clients[client] = true`), read `load := len(h.clients)` under
the same lock, then report it with `UpdateLoad(load)`. -/
def registerClient (st : HubState) (c : Client) : HubState :=
  let clients' := regInsert c st.clients
  let load := (clients'.filter (fun x => x.registered)).length
  { st with clients := clients', reports := st.reports ++ [load] }

/-- The `case client := <-h.unregister:` arm of `Run`: if the client is
in the map, delete it, close its channel through `CloseOnce`, read
`load := len(h.clients)` under the same lock and report it; otherwise do
nothing at all. -/
def unregisterClient (st : HubState) (cid : Nat) : HubState :=
  if st.clients.any (fun x => x.id = cid && x.registered) then
    let clients' := unregMap cid st.clients
    let load := (clients'.filter (fun x => x.registered)).length
    { st with clients := clients', reports := st.reports ++ [load] }
  else
    st

/-- Non-blocking send (`select { case client.Send <- payload: default: }`)
on the buffered `Send` channel: succeeds iff the buffer has free space. -/
def trySend (c : Client) (payload : String) : Client × Bool :=
  if c.send.length < c.sendCap then
    ({ c with send := c.send ++ [payload] }, true)
  else
    (c, false)

/-- The delivery body of `listenToRedis` for one bus payload: under
`h.mu`, walk every registered client and attempt a non-blocking enqueue;
clients whose buffer is full are collected in `clientsToRemove`, which is
afterwards funnelled to the `unregister` channel (returned here as the
list of ids scheduled for unregistration). -/
def deliverLocal (st : HubState) (payload : String) : HubState × List Nat :=
  let clients' :=
    st.clients.map (fun c => if c.registered then (trySend c payload).1 else c)
  let toRemove :=
    (st.clients.filter (fun c => c.registered && !(c.send.length < c.sendCap))).map
      (fun c => c.id)
  ({ st with clients := clients' }, toRemove)

/-! ## Hub operation stream

`Run` is a single dispatch loop multiplexing `register` and `unregister`
requests; `listenToRedis` applies deliveries under the same mutex. A
hub's history is therefore a sequence of atomic operations. -/

inductive HubOp where
  | register (c : Client)
  | unregister (cid : Nat)
  | deliver (payload : String)
deriving Repr, DecidableEq

/-- One atomic step of the hub: a `Run` arm or one `listenToRedis`
delivery (the unregistrations a delivery schedules arrive later as their
own `unregister` operations). -/
def hubOpStep (st : HubState) (op : HubOp) : HubState :=
  match op with
  | .register c => registerClient st c
  | .unregister cid => unregisterClient st cid
  | .deliver payload => (deliverLocal st payload).1

/-- Running the dispatch loop over a sequence of operations in submission
order. -/
def runOps (st : HubState) (ops : List HubOp) : HubState :=
  ops.foldl hubOpStep st

/-- Whether an operation reports a load: every `register` arm reports;
an `unregister` arm reports only when the client was in the map; a bus
delivery never reports by itself. -/
def opReports (st : HubState) (op : HubOp) : Bool :=
  match op with
  | .register _ => true
  | .unregister cid => st.clients.any (fun x => x.id = cid && x.registered)
  | .deliver _ => false

/-- The expected load-report trace of an operation sequence, written from
the property: after each mutating operation, the registry size
immediately after that mutation, in submission order. -/
def mutationLoads (st : HubState) : List HubOp → List Nat
  | [] => []
  | op :: ops =>
      let st' := hubOpStep st op
      (if opReports st op then [registrySize st'] else []) ++ mutationLoads st' ops

/-- Steps a hub can actually take in the program: `register` only ever
receives the fresh `Client` just built by `ServeWS` (a new pointer, hence
an id unseen by this hub), while `unregister` and deliveries can arrive
for any id at any time. -/
inductive HubStep : HubState → HubState → Prop where
  | register (st : HubState) (id : Nat) (u : String)
      (hfresh : ∀ c ∈ st.clients, c.id ≠ id) :
      HubStep st (registerClient st (mkClient id u))
  | unregister (st : HubState) (cid : Nat) :
      HubStep st (unregisterClient st cid)
  | deliver (st : HubState) (payload : String) :
      HubStep st (deliverLocal st payload).1

/-- Hub states reachable from a freshly constructed hub. -/
inductive HubReachable : HubState → Prop where
  | init (address : String) : HubReachable (initHub address)
  | step {st st' : HubState} : HubReachable st → HubStep st st' → HubReachable st'

/-! ## Inbound loop (`ReadPump`, src/server/client/client.go)

One iteration of the `for` loop in `ReadPump`, classified by what
`ReadMessage` and `json.Unmarshal` produced. A transport error breaks the
loop (the deferred `UnregisterClient` then runs); a JSON parse error
discards the frame and continues; a parsed message is rebuilt (see
`buildMessage`), saved, and — only if the save succeeded — published.
The observable effects of one iteration are recorded below. -/

inductive ReadEvent where
  | transportError
  | parseError
  | payload (incoming : Message)
deriving Repr, DecidableEq

structure IterEffects where
  saveAttempted : Bool
  publishAttempted : Bool
  loopContinues : Bool
  unregisterCalled : Bool
deriving Repr, DecidableEq

/-- The message literal built in `ReadPump`:
`models.Message{Username: c.Username, Content: incomingMsg.Content,
Server: c.Hub.GetAddress()}` — every other field keeps its Go zero
value. -/
def buildMessage (username server : String) (incoming : Message) : Message :=
  { id := 0, username := username, content := incoming.content,
    server := server, timestamp := "" }

/-- Control flow of one `ReadPump` iteration. `saveFails` / `publishFails`
say whether `SaveMessage` / `PublishMessage` would return an error for
this message. -/
def readPumpIteration (event : ReadEvent) (saveFails _publishFails : Bool) :
    IterEffects :=
  match event with
  | .transportError =>
      { saveAttempted := false, publishAttempted := false,
        loopContinues := false, unregisterCalled := true }
  | .parseError =>
      { saveAttempted := false, publishAttempted := false,
        loopContinues := true, unregisterCalled := false }
  | .payload _ =>
      if saveFails then
        { saveAttempted := true, publishAttempted := false,
          loopContinues := true, unregisterCalled := false }
      else
        { saveAttempted := true, publishAttempted := true,
          loopContinues := true, unregisterCalled := false }

/-! ## Session endpoint (`ServeWS`, src/server/handlers/websocket.go) -/

inductive WSAction where
  | registerClient (c : Client)
  | startWritePump (c : Client)
  | startReadPump (c : Client)
deriving Repr, DecidableEq

inductive WSResult where
  | badRequest (status : Nat) (msg : String)
  | upgradeFailed
  | ok (actions : List WSAction)
deriving Repr, DecidableEq

/-- `ServeWS`: reject with HTTP 400 when the `username` query value is
empty; otherwise upgrade the connection (an upgrade error just returns),
build the fresh client, register it with the hub, and only then start the
two pump goroutines. `freshId` stands for the new `Client` pointer. -/
def serveWS (username : String) (upgradeOk : Bool) (freshId : Nat) : WSResult :=
  if username = "" then
    .badRequest 400 "username required"
  else if upgradeOk = false then
    .upgradeFailed
  else
    let c := mkClient freshId username
    .ok [.registerClient c, .startWritePump c, .startReadPump c]

/-! ## History endpoint (`GetHistory`, src/unnamed/part_000)

The store is modelled as the list of persisted messages in insertion
order; `timestamp DATETIME DEFAULT CURRENT_TIMESTAMP` with autoincrement
ids makes `ORDER BY timestamp DESC LIMIT 50` the reverse of insertion
order truncated to 50 rows. The handler appends each row to a `nil` Go
slice, reverses it in place with the two-index swap loop (= list
reversal), and JSON-encodes the slice: Go's encoder emits `null` for a
`nil` slice — which the slice is exactly when the query returned no
rows — and a JSON array otherwise. -/

inductive JSONBody where
  | null
  | array (msgs : List Message)
deriving Repr, DecidableEq

/-- `SELECT ... ORDER BY timestamp DESC LIMIT 50` against the store. -/
def queryNewestFirst (store : List Message) (limit : Nat) : List Message :=
  store.reverse.take limit

/-- The `/history` handler body on a successful query. -/
def getHistory (store : List Message) : JSONBody :=
  let rows := queryNewestFirst store 50
  let messages := rows.reverse
  if messages.isEmpty then .null else .array messages

/-! ## Concrete sample data used by witnesses and counterexamples -/

/-- An inbound frame that fills every optional field with noise. -/
def noisyInbound : Message :=
  { id := 5, username := "mallory", content := "hi", server := "spoof",
    timestamp := "2024-01-01" }

/-- An inbound frame carrying only `content` (all other fields Go zero). -/
def plainInbound : Message :=
  { id := 0, username := "", content := "hi", server := "", timestamp := "" }

/-- A persisted message as stored by the history table. -/
def sampleStored : Message :=
  { id := 1, username := "alice", content := "hi",
    server := "ws://127.0.0.1:8080", timestamp := "t1" }

/-- A freshly connected, registered client, as it sits in the hub map
right after `ServeWS` registered it. -/
def sampleClient : Client :=
  { mkClient 0 "alice" with registered := true }

/-- A hub holding exactly `sampleClient`. -/
def sampleHub : HubState :=
  { address := "ws://127.0.0.1:8080", clients := [sampleClient], reports := [1] }

/-! ## Theorems -/

/-- The fold inside `getServer`, started on a non-`nil` accumulator,
yields an entry drawn from the accumulator or the list whose load is a
lower bound for both. -/
lemma scanBest_fold (l : List ChatServerInfo) :
    ∀ b : ChatServerInfo,
      ∃ c, l.foldl
            (fun best s =>
              match best with
              | none => some s
              | some b => if s.load < b.load then some s else some b)
            (some b) = some c ∧
        (c = b ∨ c ∈ l) ∧ c.load ≤ b.load ∧ ∀ s ∈ l, c.load ≤ s.load := by
  induction l with
  | nil =>
      intro b
      exact ⟨b, rfl, Or.inl rfl, le_refl _, by simp⟩
  | cons a l ih =>
      intro b
      by_cases h : a.load < b.load
      · obtain ⟨c, hc, hmem, hle, hall⟩ := ih a
        refine ⟨c, by simpa [h] using hc, ?_, ?_, ?_⟩
        · rcases hmem with rfl | hm
          · exact Or.inr (List.mem_cons_self _ _)
          · exact Or.inr (List.mem_cons_of_mem _ hm)
        · exact le_trans hle (le_of_lt h)
        · intro s hs
          rcases List.mem_cons.mp hs with rfl | hs'
          · exact hle
          · exact hall s hs'
      · obtain ⟨c, hc, hmem, hle, hall⟩ := ih b
        refine ⟨c, by simpa [h] using hc, ?_, hle, ?_⟩
        · rcases hmem with rfl | hm
          · exact Or.inl rfl
          · exact Or.inr (List.mem_cons_of_mem _ hm)
        · intro s hs
          rcases List.mem_cons.mp hs with rfl | hs'
          · exact le_trans hle (not_lt.mp h)
          · exact hall s hs'

/-- C5: `getServer` fails with `NoServersAvailable` exactly when the
registry is empty; otherwise it returns a registered entry whose load is
minimal over all entries (never any other failure). -/
theorem getServer_selects_minimum (servers : List ChatServerInfo) :
    (getServer servers = .error .noServersAvailable ↔ servers = []) ∧
    (servers ≠ [] →
      ∃ b, getServer servers = .ok b ∧ b ∈ servers ∧
        ∀ s ∈ servers, b.load ≤ s.load) := by
  cases servers with
  | nil => simp [getServer]
  | cons a l =>
      obtain ⟨c, hc, hmem, hle, hall⟩ := scanBest_fold l a
      have hscan : scanBest (a :: l) = some c := by
        simpa [scanBest] using hc
      have hget : getServer (a :: l) = .ok c := by
        simp [getServer, hscan]
      refine ⟨⟨fun h => by simp [hget] at h, fun h => by simp at h⟩, fun _ => ⟨c, hget, ?_, ?_⟩⟩
      · rcases hmem with rfl | hm
        · exact List.mem_cons_self _ _
        · exact List.mem_cons_of_mem _ hm
      · intro s hs
        rcases List.mem_cons.mp hs with rfl | hs'
        · exact hle
        · exact hall s hs'

/-- A witness instantiation of `getServer_selects_minimum` on the
spec's example loads `{a:3, b:1, c:5}`. -/
theorem getServer_selects_minimum_witness :
    ∃ b, getServer [ChatServerInfo.mk "a" 3, ChatServerInfo.mk "b" 1,
        ChatServerInfo.mk "c" 5] = .ok b ∧
      b ∈ [ChatServerInfo.mk "a" 3, ChatServerInfo.mk "b" 1,
        ChatServerInfo.mk "c" 5] ∧
      ∀ s ∈ [ChatServerInfo.mk "a" 3, ChatServerInfo.mk "b" 1,
        ChatServerInfo.mk "c" 5], b.load ≤ s.load :=
  (getServer_selects_minimum _).2 (by simp)

/-- The per-entry rewrite used by `updateServer` never changes an
entry's address. -/
lemma updateEntry_address (addr : String) (load : Int) (s : ChatServerInfo) :
    ((if s.address = addr then { s with load := load } else s) :
      ChatServerInfo).address = s.address := by
  split <;> rfl

/-- Looking up by address commutes with `updateServer`'s per-entry
rewrite, because that rewrite preserves addresses. -/
lemma find?_map_updateEntry (addr a : String) (load : Int)
    (l : List ChatServerInfo) :
    (l.map (fun s => if s.address = addr then { s with load := load } else s)).find?
        (fun s => s.address = a)
      = (l.find? (fun s => s.address = a)).map
          (fun s => if s.address = addr then { s with load := load } else s) := by
  induction l with
  | nil => rfl
  | cons b l ih =>
      simp only [List.map_cons]
      by_cases hb : b.address = a
      · rw [List.find?_cons_of_pos _ (by simp only [updateEntry_address]; simp [hb]),
          List.find?_cons_of_pos _ (by simp [hb])]
        rfl
      · rw [List.find?_cons_of_neg _ (by simp only [updateEntry_address]; simp [hb]),
          List.find?_cons_of_neg _ (by simp [hb])]
        exact ih

/-- C7 counterexample: a report with a negative load is not rejected —
the `/update` handler decodes it, stores the entry with load `-1` and
answers HTTP 200, so no non-negativity requirement exists. -/
theorem updateServer_accepts_negative_load :
    updateServerHandler [] (some { address := "a", load := -1 })
      = ([{ address := "a", load := -1 }], 200) ∧ (-1 : Int) < 0 := by
  constructor
  · rfl
  · decide

/-- C7 (amended): `updateServer` overwrites-or-inserts the entry for the
reported address with the reported load (last write wins), leaves every
other address's entry untouched, never deletes an entry, and the handler
applies any decoded body without validating the load. -/
theorem updateServer_upsert_last_write_wins (servers : List ChatServerInfo)
    (addr : String) (load : Int) :
    (∃ e, lookupServer (updateServer servers addr load) addr = some e ∧
        e.address = addr ∧ e.load = load) ∧
    (∀ a, a ≠ addr →
      lookupServer (updateServer servers addr load) a = lookupServer servers a) ∧
    (∀ s ∈ servers, ∃ t ∈ updateServer servers addr load, t.address = s.address) ∧
    updateServerHandler servers (some { address := addr, load := load })
      = (updateServer servers addr load, 200) := by
  by_cases hmem : servers.any (fun s => s.address = addr) = true
  · have hup : updateServer servers addr load
        = servers.map (fun s => if s.address = addr then { s with load := load } else s) := by
      simp [updateServer, hmem]
    refine ⟨?_, ?_, ?_, rfl⟩
    · have hsome : (servers.find? (fun s => s.address = addr)).isSome := by
        rw [List.find?_isSome]
        simpa using hmem
      obtain ⟨e0, he0⟩ := Option.isSome_iff_exists.mp hsome
      have he0p : e0.address = addr := by simpa using List.find?_some he0
      refine ⟨{ e0 with load := load }, ?_, he0p, rfl⟩
      simp only [hup, lookupServer, find?_map_updateEntry, he0, Option.map_some]
      simp [he0p]
    · intro a ha
      simp only [hup, lookupServer, find?_map_updateEntry]
      cases hfind : servers.find? (fun s => decide (s.address = a)) with
      | none => rfl
      | some e =>
          have hep : e.address = a := by simpa using List.find?_some hfind
          simp [hep, ha]
    · intro s hs
      refine ⟨(fun s => if s.address = addr then { s with load := load } else s) s,
        ?_, updateEntry_address addr load s⟩
      rw [hup]
      exact List.mem_map_of_mem _ hs
  · have hup : updateServer servers addr load
        = servers ++ [{ address := addr, load := load }] := by
      simp only [updateServer, if_neg hmem]
    have hnone : servers.find? (fun s => decide (s.address = addr)) = none := by
      rw [List.find?_eq_none]
      intro x hx
      simp only [List.any_eq_true, decide_eq_true_eq] at hmem
      push_neg at hmem
      simp only [decide_eq_true_eq]
      exact hmem x hx
    refine ⟨?_, ?_, ?_, rfl⟩
    · refine ⟨{ address := addr, load := load }, ?_, rfl, rfl⟩
      simp only [hup, lookupServer, List.find?_append, hnone]
      simp
    · intro a ha
      simp only [hup, lookupServer, List.find?_append]
      have htail : (List.find? (fun s => decide (s.address = a))
          [({ address := addr, load := load } : ChatServerInfo)]) = none := by
        simp [List.find?, Ne.symm ha]
      rw [htail]
      cases servers.find? (fun s => decide (s.address = a)) <;> rfl
    · intro s hs
      exact ⟨s, by rw [hup]; exact List.mem_append_left _ hs, rfl⟩

/-- A witness instantiation of `updateServer_upsert_last_write_wins` on
a two-entry registry, refreshing the load of `a`: `a` now reads 7 and
`b` is untouched. -/
theorem updateServer_upsert_last_write_wins_witness :
    (∃ e, lookupServer
        (updateServer [ChatServerInfo.mk "a" 3, ChatServerInfo.mk "b" 1] "a" 7) "a"
          = some e ∧ e.address = "a" ∧ e.load = 7) ∧
    lookupServer
        (updateServer [ChatServerInfo.mk "a" 3, ChatServerInfo.mk "b" 1] "a" 7) "b"
      = lookupServer [ChatServerInfo.mk "a" 3, ChatServerInfo.mk "b" 1] "b" :=
  ⟨(updateServer_upsert_last_write_wins _ "a" 7).1,
   (updateServer_upsert_last_write_wins _ "a" 7).2.1 "b" (by simp)⟩

/-- C1 counterexample: on a well-formed payload whose save fails,
`ReadPump` executes `continue` before reaching `PublishMessage`, so the
publish is *not* attempted — refuting "both are attempted even if one of
them fails". -/
theorem readPump_publish_skipped_on_save_failure :
    (readPumpIteration (.payload plainInbound) true false).saveAttempted = true ∧
    (readPumpIteration (.payload plainInbound) true false).publishAttempted
      = false := by
  constructor <;> rfl

/-- C1 (amended): on a well-formed payload the save is always attempted;
the publish is attempted exactly when the save succeeded; a publish
failure is only logged — the inbound loop continues either way and the
session is not unregistered. -/
theorem readPump_save_then_publish (incoming : Message)
    (saveFails publishFails : Bool) :
    (readPumpIteration (.payload incoming) saveFails publishFails).saveAttempted
        = true ∧
    (readPumpIteration (.payload incoming) saveFails publishFails).publishAttempted
        = !saveFails ∧
    (readPumpIteration (.payload incoming) saveFails publishFails).loopContinues
        = true ∧
    (readPumpIteration (.payload incoming) saveFails publishFails).unregisterCalled
        = false := by
  cases saveFails <;> simp [readPumpIteration]

/-- C8: the chat message `ReadPump` constructs depends only on the
`content` field of the inbound frame — username is stamped from the
session and server from the hub address; inbound username, server, id
and timestamp have no influence. -/
theorem buildMessage_depends_only_on_content (u srv : String)
    (in1 in2 : Message) (h : in1.content = in2.content) :
    buildMessage u srv in1 = buildMessage u srv in2 ∧
    (buildMessage u srv in1).username = u ∧
    (buildMessage u srv in1).server = srv := by
  refine ⟨?_, rfl, rfl⟩
  simp [buildMessage, h]

/-- Witness for `buildMessage_depends_only_on_content`: two inbound
frames sharing `content` but differing in every other field produce the
identical outbound message. -/
theorem buildMessage_depends_only_on_content_witness :
    buildMessage "alice" "ws://127.0.0.1:8080" noisyInbound
      = buildMessage "alice" "ws://127.0.0.1:8080" plainInbound ∧
    (buildMessage "alice" "ws://127.0.0.1:8080" noisyInbound).username
      = "alice" ∧
    (buildMessage "alice" "ws://127.0.0.1:8080" noisyInbound).server
      = "ws://127.0.0.1:8080" :=
  buildMessage_depends_only_on_content _ _ _ _ rfl

/-- C9: an empty `username` query value is rejected with HTTP 400 and no
session is created or registered; a non-empty username (on a successful
upgrade) yields a session carrying exactly that username whose
registration action precedes the start of both pump loops. -/
theorem serveWS_username_required_register_first (username : String)
    (upgradeOk : Bool) (freshId : Nat) :
    (username = "" →
      serveWS username upgradeOk freshId = .badRequest 400 "username required") ∧
    (username ≠ "" → upgradeOk = true →
      serveWS username upgradeOk freshId
          = .ok [.registerClient (mkClient freshId username),
              .startWritePump (mkClient freshId username),
              .startReadPump (mkClient freshId username)] ∧
        (mkClient freshId username).username = username) := by
  constructor
  · intro h
    simp [serveWS, h]
  · intro h hup
    subst hup
    exact ⟨by simp [serveWS, h], rfl⟩

/-- Witness for `serveWS_username_required_register_first`: the empty
username is rejected, and username `alice` produces a registered session
named `alice` with registration first in the action sequence. -/
theorem serveWS_username_required_register_first_witness :
    serveWS "" true 0 = .badRequest 400 "username required" ∧
    (serveWS "alice" true 0
        = .ok [.registerClient (mkClient 0 "alice"),
            .startWritePump (mkClient 0 "alice"),
            .startReadPump (mkClient 0 "alice")] ∧
      (mkClient 0 "alice").username = "alice") :=
  ⟨(serveWS_username_required_register_first "" true 0).1 rfl,
   (serveWS_username_required_register_first "alice" true 0).2 (by simp) rfl⟩

/-- C6 counterexample: on an empty store the handler's slice stays `nil`
and Go's JSON encoder emits `null`, not the empty JSON array. -/
theorem getHistory_empty_is_null :
    getHistory [] = JSONBody.null ∧ JSONBody.null ≠ JSONBody.array [] := by
  constructor
  · rfl
  · intro h
    cases h

/-- C6 (amended): the history endpoint returns the most recent 50
persisted messages oldest-first — the reverse of the newest-first limited
query — as a JSON array whenever the store is non-empty; an empty store
yields JSON `null` rather than an empty array. -/
theorem getHistory_oldest_first (store : List Message) :
    (store = [] → getHistory store = .null) ∧
    (store ≠ [] →
      getHistory store = .array (queryNewestFirst store 50).reverse) := by
  constructor
  · intro h
    subst h
    rfl
  · intro h
    have hrev : store.reverse ≠ [] := by simpa using h
    have hne : (store.reverse.take 50).reverse ≠ [] := by
      simp only [ne_eq, List.reverse_eq_nil_iff, List.take_eq_nil_iff]
      push_neg
      refine ⟨by norm_num, h⟩
    simp [getHistory, queryNewestFirst, List.isEmpty_iff, hne]

/-- Witness for `getHistory_oldest_first`: a one-message store comes back
as a singleton JSON array. -/
theorem getHistory_oldest_first_witness :
    getHistory [sampleStored]
      = .array (queryNewestFirst [sampleStored] 50).reverse :=
  (getHistory_oldest_first _).2 (by simp)

/-- `closeOnce` never changes the client's identity. -/
lemma closeOnce_id (c : Client) : (closeOnce c).id = c.id := by
  unfold closeOnce
  split <;> rfl

/-- `closeOnce` never changes registry membership. -/
lemma closeOnce_registered (c : Client) :
    (closeOnce c).registered = c.registered := by
  unfold closeOnce
  split <;> rfl

/-- Once the one-shot flag is set, `closeOnce` is the identity. -/
lemma closeOnce_of_used (c : Client) (h : c.closeOnceUsed = true) :
    closeOnce c = c := by
  unfold closeOnce
  simp [h]

/-- Before the one-shot flag is set, `closeOnce` closes the queue,
sets the flag and bumps the close counter. -/
lemma closeOnce_of_unused (c : Client) (h : c.closeOnceUsed = false) :
    closeOnce c = { c with closeOnceUsed := true, closed := true, closeCount := c.closeCount + 1 } := by
  unfold closeOnce
  simp [h]

/-- Unfolding of the effective unregister arm. -/
lemma unregisterClient_pos (st : HubState) (cid : Nat)
    (hg : st.clients.any (fun x => x.id = cid && x.registered) = true) :
    unregisterClient st cid
      = { st with clients := unregMap cid st.clients, reports := st.reports ++ [((unregMap cid st.clients).filter (fun x => x.registered)).length] } := by
  rw [unregisterClient, if_pos hg]

/-- Unfolding of the no-op unregister arm. -/
lemma unregisterClient_neg (st : HubState) (cid : Nat)
    (hg : ¬ st.clients.any (fun x => x.id = cid && x.registered) = true) :
    unregisterClient st cid = st := by
  rw [unregisterClient, if_neg hg]

/-- After any `unregisterClient st cid`, no client with id `cid` is left
registered, so the guard of a repeated unregister is false. -/
lemma unregister_guard_after (st : HubState) (cid : Nat) :
    (unregisterClient st cid).clients.any
      (fun x => x.id = cid && x.registered) = false := by
  by_cases hg : st.clients.any (fun x => x.id = cid && x.registered) = true
  · rw [unregisterClient_pos st cid hg]
    rw [List.any_eq_false]
    intro x hx
    obtain ⟨y, _, rfl⟩ := List.mem_map.mp hx
    by_cases hy : y.id = cid
    · simp [hy, closeOnce_registered]
    · simp [hy]
  · rw [unregisterClient_neg st cid hg]
    simpa using hg

/-- A second `unregisterClient` for the same session is the identity. -/
lemma unregister_unregister (st : HubState) (cid : Nat) :
    unregisterClient (unregisterClient st cid) cid = unregisterClient st cid := by
  have h := unregister_guard_after st cid
  exact unregisterClient_neg _ _ (by simp [h])

/-- C3: unregistering a session any number `n ≥ 1` of times equals
unregistering it once (so every call after the first removal leaves the
registry unchanged and never fails), and the single effective call closes
the outbound queue exactly once: a registered client with an unused
one-shot flag ends with `closeCount` bumped exactly to one more, its
queue closed, and its registry membership gone. -/
theorem unregister_idempotent_close_once (st : HubState) (cid : Nat)
    (n : Nat) (hn : 1 ≤ n) :
    (fun s => unregisterClient s cid)^[n] st = unregisterClient st cid ∧
    ∀ c ∈ st.clients, c.id = cid → c.registered = true →
      c.closeOnceUsed = false →
      ∃ c' ∈ (unregisterClient st cid).clients,
        c'.id = c.id ∧ c'.closeCount = c.closeCount + 1 ∧
        c'.closed = true ∧ c'.closeOnceUsed = true ∧ c'.registered = false := by
  constructor
  · induction n with
    | zero => omega
    | succ m ihm =>
        rcases Nat.eq_or_lt_of_le hn with h1 | h1
        · rw [← h1]
          simp
        · have hm : 1 ≤ m := by omega
          rw [Function.iterate_succ_apply' _ _ _, ihm hm, unregister_unregister]
  · intro c hc hid hreg hused
    have hg : st.clients.any (fun x => x.id = cid && x.registered) = true := by
      rw [List.any_eq_true]
      exact ⟨c, hc, by simp [hid, hreg]⟩
    have hclients : (unregisterClient st cid).clients = unregMap cid st.clients := by
      rw [unregisterClient_pos st cid hg]
    refine ⟨closeOnce { c with registered := false }, ?_, ?_⟩
    · rw [hclients, unregMap]
      have hmem := List.mem_map_of_mem
        (fun x => if x.id = cid then closeOnce { x with registered := false } else x) hc
      simpa [hid] using hmem
    · rw [closeOnce_of_unused _ (by simpa using hused)]
      simp

/-- Witness for `unregister_idempotent_close_once`: unregistering
`sampleClient` twice equals unregistering it once, and the single
effective call closes its queue with close count exactly 1. -/
theorem unregister_idempotent_close_once_witness :
    ((fun s => unregisterClient s 0)^[2] sampleHub = unregisterClient sampleHub 0) ∧
    ∀ c ∈ sampleHub.clients, c.id = 0 → c.registered = true →
      c.closeOnceUsed = false →
      ∃ c' ∈ (unregisterClient sampleHub 0).clients,
        c'.id = c.id ∧ c'.closeCount = c.closeCount + 1 ∧
        c'.closed = true ∧ c'.closeOnceUsed = true ∧ c'.registered = false :=
  unregister_idempotent_close_once sampleHub 0 2 (by norm_num)

/-- `trySend` only touches the buffered payload list: identity, registry
membership and the close state are untouched either way. -/
lemma trySend_fields (c : Client) (p : String) :
    (trySend c p).1.id = c.id ∧ (trySend c p).1.registered = c.registered ∧
    (trySend c p).1.closed = c.closed ∧
    (trySend c p).1.closeOnceUsed = c.closeOnceUsed := by
  unfold trySend
  split <;> simp

/-- C2: one bus delivery walks every registered session exactly once:
a session with queue space receives the payload appended to its queue
exactly once and is not scheduled for removal; a session with a full
queue keeps its queue unchanged (no retry) and its id is scheduled for
unregistration instead. Ids are assumed distinct, as they stand for Go
pointer identities. -/
theorem deliverLocal_enqueue_or_evict (st : HubState) (payload : String)
    (hnodup : (st.clients.map (fun c => c.id)).Nodup) :
    ∀ c ∈ st.clients, c.registered = true →
      (c.send.length < c.sendCap →
        { c with send := c.send ++ [payload] } ∈ (deliverLocal st payload).1.clients ∧
        (c.send ++ [payload]).count payload = c.send.count payload + 1 ∧
        c.id ∉ (deliverLocal st payload).2) ∧
      (¬ c.send.length < c.sendCap →
        c ∈ (deliverLocal st payload).1.clients ∧
        c.id ∈ (deliverLocal st payload).2) := by
  intro c hc hreg
  constructor
  · intro hspace
    refine ⟨?_, by simp, ?_⟩
    · have : (fun d => if d.registered then (trySend d payload).1 else d) c
          = { c with send := c.send ++ [payload] } := by
        simp [hreg, trySend, hspace]
      simpa [deliverLocal, this] using
        List.mem_map_of_mem (fun d => if d.registered then (trySend d payload).1 else d) hc
    · intro habs
      have hmem : c.id ∈ (st.clients.filter
          (fun d => d.registered && !(d.send.length < d.sendCap))).map
            (fun d => d.id) := by
        simpa [deliverLocal] using habs
      obtain ⟨d, hd, hdid⟩ := List.mem_map.mp hmem
      have hdmem : d ∈ st.clients := (List.mem_filter.mp hd).1
      have hdprop := (List.mem_filter.mp hd).2
      have : d = c := List.inj_on_of_nodup_map hnodup hdmem hc hdid
      subst this
      simp [hspace] at hdprop
  · intro hfull
    constructor
    · have : (fun d => if d.registered then (trySend d payload).1 else d) c = c := by
        simp [hreg, trySend, hfull]
      simpa [deliverLocal, this] using
        List.mem_map_of_mem (fun d => if d.registered then (trySend d payload).1 else d) hc
    · have : c ∈ st.clients.filter
          (fun d => d.registered && !(d.send.length < d.sendCap)) :=
        List.mem_filter.mpr ⟨hc, by simp [hreg, hfull]⟩
      simpa [deliverLocal] using List.mem_map_of_mem (fun d => d.id) this

/-- Witness for `deliverLocal_enqueue_or_evict`: delivering `"hi"` to
`sampleHub` enqueues it once onto `sampleClient`'s empty queue and does
not schedule the session for removal. -/
theorem deliverLocal_enqueue_or_evict_witness :
    { sampleClient with send := sampleClient.send ++ ["hi"] }
        ∈ (deliverLocal sampleHub "hi").1.clients ∧
    (sampleClient.send ++ ["hi"]).count "hi" = sampleClient.send.count "hi" + 1 ∧
    sampleClient.id ∉ (deliverLocal sampleHub "hi").2 :=
  (deliverLocal_enqueue_or_evict sampleHub "hi" (by simp [sampleHub])
      sampleClient (by simp [sampleHub]) rfl).1 (by decide)

/-- The client-local invariant maintained by the hub: a client is in the
registry exactly while its queue is open, and the queue is closed exactly
when the one-shot flag has fired. -/
def clientWF (c : Client) : Prop :=
  (c.registered = true ↔ c.closed = false) ∧ c.closed = c.closeOnceUsed

/-- Every client of a reachable hub state satisfies `clientWF`. -/
lemma reachable_clientWF (st : HubState) (h : HubReachable st) :
    ∀ c ∈ st.clients, clientWF c := by
  induction h with
  | init address =>
      intro c hc
      simp [initHub] at hc
  | @step s s' hr hs ih =>
      cases hs with
      | register id u hfresh =>
          intro c hc
          have hany : s.clients.any (fun x => x.id = (mkClient id u).id) = false := by
            rw [List.any_eq_false]
            intro x hx
            simpa [mkClient] using hfresh x hx
          have hclients : (registerClient s (mkClient id u)).clients
              = s.clients ++ [{ mkClient id u with registered := true }] := by
            simp only [registerClient, regInsert, hany]
            simp
          rw [hclients] at hc
          rcases List.mem_append.mp hc with hold | hnew
          · exact ih c hold
          · have : c = { mkClient id u with registered := true } := by
              simpa using hnew
            subst this
            refine ⟨by simp [mkClient], by simp [mkClient]⟩
      | unregister cid =>
          intro c hc
          by_cases hg : s.clients.any (fun x => x.id = cid && x.registered) = true
          · rw [unregisterClient_pos s cid hg] at hc
            simp only [unregMap] at hc
            obtain ⟨y, hy, rfl⟩ := List.mem_map.mp hc
            obtain ⟨hiff, hcu⟩ := ih y hy
            by_cases hyid : y.id = cid
            · simp only [hyid, if_pos]
              by_cases hused : y.closeOnceUsed = true
              · rw [closeOnce_of_used _ (by simpa using hused)]
                have hycl : y.closed = true := by rw [hcu]; exact hused
                refine ⟨by simp [hycl], by simp [hycl, hused]⟩
              · have hused' : y.closeOnceUsed = false := by
                  simpa using hused
                rw [closeOnce_of_unused _ (by simpa using hused')]
                refine ⟨by simp, by simp⟩
            · simp only [hyid, if_neg, ite_false]
              exact ⟨hiff, hcu⟩
          · rw [unregisterClient_neg s cid hg] at hc
            exact ih c hc
      | deliver payload =>
          intro c hc
          simp only [deliverLocal] at hc
          obtain ⟨y, hy, rfl⟩ := List.mem_map.mp hc
          obtain ⟨hiff, hcu⟩ := ih y hy
          by_cases hyreg : y.registered = true
          · obtain ⟨_, hr2, hr3, hr4⟩ := trySend_fields y payload
            simp only [hyreg, if_pos]
            rw [clientWF, hr2, hr3, hr4]
            exact ⟨hiff, hcu⟩
          · simp only [hyreg, ite_false]
            exact ⟨hiff, hcu⟩

/-- C4: in every reachable hub state a session is in the registry iff
its outbound queue has not been closed; a bus delivery (`deliverLocal`)
changes neither registry membership nor identity of any client — in the
step relation `HubStep`, entries are added only by the register arm and
removed only by the unregister arm. -/
theorem hub_registry_iff_queue_open (st : HubState) (h : HubReachable st) :
    (∀ c ∈ st.clients, (c.registered = true ↔ c.closed = false)) ∧
    (∀ payload,
      (deliverLocal st payload).1.clients.map (fun c => (c.id, c.registered))
        = st.clients.map (fun c => (c.id, c.registered))) := by
  constructor
  · intro c hc
    exact (reachable_clientWF st h c hc).1
  · intro payload
    simp only [deliverLocal, List.map_map]
    refine List.map_congr_left ?_
    intro y _
    by_cases hyreg : y.registered = true
    · obtain ⟨hr1, hr2, _, _⟩ := trySend_fields y payload
      simp [hyreg, hr1, hr2]
    · simp [hyreg]

/-- Witness for `hub_registry_iff_queue_open`: the state reached by one
fresh registration on a new hub. -/
theorem hub_registry_iff_queue_open_witness :
    (∀ c ∈ (registerClient (initHub "ws://127.0.0.1:8080") (mkClient 0 "alice")).clients,
      (c.registered = true ↔ c.closed = false)) ∧
    (∀ payload,
      (deliverLocal (registerClient (initHub "ws://127.0.0.1:8080") (mkClient 0 "alice"))
          payload).1.clients.map (fun c => (c.id, c.registered))
        = (registerClient (initHub "ws://127.0.0.1:8080")
            (mkClient 0 "alice")).clients.map (fun c => (c.id, c.registered))) :=
  hub_registry_iff_queue_open _
    (HubReachable.step (HubReachable.init "ws://127.0.0.1:8080")
      (HubStep.register _ 0 "alice" (by intro c hc; simp [initHub] at hc)))

/-- One dispatch-loop step appends exactly the reports the source emits:
a register arm always reports the registry size right after its mutation,
an unregister arm does so only when it actually removed the client, and a
bus delivery reports nothing. -/
lemma hubOpStep_reports (st : HubState) (op : HubOp) :
    (hubOpStep st op).reports
      = st.reports ++
          (if opReports st op then [registrySize (hubOpStep st op)] else []) := by
  cases op with
  | register c =>
      simp only [hubOpStep, opReports, if_true]
      rfl
  | unregister cid =>
      by_cases hg : st.clients.any (fun x => x.id = cid && x.registered) = true
      · have hpos := unregisterClient_pos st cid hg
        simp only [hubOpStep, opReports, hg, if_true, hpos, registrySize]
      · have hneg := unregisterClient_neg st cid hg
        simp only [hubOpStep, opReports, hneg]
        rw [if_neg (by simpa using hg)]
        simp
  | deliver payload =>
      simp only [hubOpStep, opReports, if_false, deliverLocal]
      simp

/-- C10: running the dispatch loop over any operation sequence produces
exactly the report trace `mutationLoads`: after every register and every
effective unregister — and only those — the registry size immediately
after that mutation (read in the same atomic step) is reported, in the
order the mutations were applied. -/
theorem runOps_reports_registry_size_after_mutation (st : HubState)
    (ops : List HubOp) :
    (runOps st ops).reports = st.reports ++ mutationLoads st ops := by
  induction ops generalizing st with
  | nil =>
      simp [runOps, mutationLoads]
  | cons op ops ih =>
      have hstep : runOps st (op :: ops) = runOps (hubOpStep st op) ops := by
        simp [runOps]
      rw [hstep, ih, hubOpStep_reports, mutationLoads]
      simp [List.append_assoc]

end DistChat
